import Mathlib

/-
Verification of nmappy (src/nmappy.py): a shallow embedding of the
concurrent port scanner's pure logic, its per-port check protocol, and an
operational model of its worker/queue coordination, with theorems settling
the specification's claims.

Network effects are modelled by explicit outcome values: a connection
attempt either returns an error code (as `connect_ex` does) or raises, and
a probe exchange either yields a decoded response string (`decode` with
`errors="ignore"` never fails) or raises during `sendall`/`recv`.
-/

/-! ## Substring matching (Python's `keyword in response`) -/

/-- `prefB n l` decides whether `n` is a prefix of `l` (on character lists). -/
def prefB : List Char → List Char → Bool
  | [], _ => true
  | _ :: _, [] => false
  | a :: as, b :: bs => a == b && prefB as bs

/-- `subB n l` decides whether `n` occurs as a contiguous sublist of `l`. -/
def subB (n : List Char) : List Char → Bool
  | [] => prefB n []
  | c :: cs => prefB n (c :: cs) || subB n cs

/-- `occursIn k s` embeds Python's substring test `k in s`. -/
def occursIn (k s : String) : Bool := subB k.data s.data

/-! ## Service catalog (src/nmappy.py lines 13-47) -/

/-- Byte values of a string literal, for the ASCII probe payloads. -/
def strBytes (s : String) : List Nat := s.data.map Char.toNat

/-- SERVICE_PROBES: dictionary of service identification probes for common
ports (insertion order of the Python dict literal). -/
def SERVICE_PROBES : List (Int × List Nat) :=
  [ (20, strBytes "NOOP\r\n"),
    (21, strBytes "HELLO\r\n"),
    (22, strBytes "\n"),
    (23, strBytes "\r\n"),
    (25, strBytes "EHLO example.com\r\n"),
    (53, strBytes "\x00\x00\x01\x00\x00\x01\x00\x00\x00\x00\x00\x00\x07example\x03com\x00\x00\x01\x00\x01"),
    (80, strBytes "HEAD / HTTP/1.0\r\n\r\n"),
    (110, strBytes "USER test\r\n"),
    (143, strBytes "TAG LOGIN test test\r\n"),
    (443, strBytes "\x16\x03\x01\x00\x01\x01"),
    (587, strBytes "EHLO example.com\r\n"),
    (3306, strBytes "\x00"),
    (3389, strBytes "\x03\x00\x00\x13\x0e\xe0\x00\x00\x00\x00\x00\x01\x00\x08\x03\x00\x00\x00"),
    (5900, strBytes "RFB 003.003\n"),
    (8080, strBytes "HEAD / HTTP/1.0\r\n\r\n") ]

/-- SERVICE_KEYWORDS: ordered keyword table mapping response substrings to
service names (insertion order of the Python dict literal). -/
def SERVICE_KEYWORDS : List (String × String) :=
  [ ("HTTP", "HTTP"),
    ("220", "FTP"),
    ("FTP", "FTP"),
    ("SSH", "SSH"),
    ("Telnet", "Telnet"),
    ("Login", "Telnet"),
    ("POP3", "POP3"),
    ("IMAP", "IMAP"),
    ("SMTP", "SMTP"),
    ("MySQL", "MySQL"),
    ("RFB", "VNC"),
    ("RDP", "Remote Desktop"),
    ("HTTPS", "HTTPS") ]

/-- Dict lookup `SERVICE_PROBES[port]` (and the `port in SERVICE_PROBES` test). -/
def probeFor (port : Int) : Option (List Nat) :=
  (SERVICE_PROBES.find? (fun e => e.1 == port)).map Prod.snd

/-- The keyword-matching loop of `identify_service` (lines 70-72): first
keyword of the table occurring in the response wins. -/
def classifyAux : List (String × String) → String → Option String
  | [], _ => none
  | (k, v) :: rest, s => if occursIn k s then some v else classifyAux rest s

/-- Classification of a decoded response against SERVICE_KEYWORDS. -/
def classify (s : String) : Option String := classifyAux SERVICE_KEYWORDS s

/-! ## Port prober (identify_service, lines 50-77) -/

/-- Outcome of the probe exchange on an established connection: either the
decoded response text (`recv(1024).decode(errors="ignore")` cannot fail on
received bytes), or an exception raised during `sendall`/`recv`. -/
inductive ProbeOutcome where
  | ok : String → ProbeOutcome
  | exn : ProbeOutcome

/-- The body of `identify_service`'s `try` block: may fail (exception)
when the probe exchange raises. -/
def identifyServiceCore (conn : ProbeOutcome) (port : Int) : Except Unit String :=
  match probeFor port with
  | some _ =>
    match conn with
    | ProbeOutcome.ok r =>
      match classify r with
      | some s => Except.ok s
      | none => Except.ok "Unknown"
    | ProbeOutcome.exn => Except.error ()
  | none => Except.ok "Unknown"

/-- identify_service: the `try`/`except Exception: return "Unknown"` wrapper
around the probe body. Total: every error is mapped to "Unknown". -/
def identify_service (conn : ProbeOutcome) (port : Int) : String :=
  match identifyServiceCore conn port with
  | Except.ok s => s
  | Except.error _ => "Unknown"

/-! ## Port checker (scan_port, lines 80-106) -/

/-- Outcome of creating a socket and calling `connect_ex`: either an error
code is returned (`0` means the connection succeeded), or an exception is
raised during socket creation / connection. -/
inductive ConnectOutcome where
  | ok : Int → ConnectOutcome
  | exn : String → ConnectOutcome

/-- The network behaviour one port check observes. -/
structure NetEnv where
  connect : ConnectOutcome
  probe : ProbeOutcome

/-- Observable result of one `scan_port` call: the lines it prints and
whether `sock.close()` was reached. -/
structure ScanPortResult where
  output : List String
  socketClosed : Bool

/-- scan_port: connect with `connect_ex`; on code 0 print the open-port
line (identifying the service only when `verbose`); `sock.close()` sits at
the end of the `try` block, so an exception jumps to the `except` handler,
prints the error line and never closes the socket. -/
def scan_port (env : NetEnv) (port : Int) (verbose : Bool) : ScanPortResult :=
  match env.connect with
  | ConnectOutcome.exn msg =>
      { output := ["Error scanning port " ++ toString port ++ ": " ++ msg],
        socketClosed := false }
  | ConnectOutcome.ok code =>
      if code = 0 then
        let service_name := if verbose then identify_service env.probe port else "Unknown"
        { output := ["Port " ++ toString port ++ " is open (Service: " ++ service_name ++ ")"],
          socketClosed := true }
      else
        { output := [], socketClosed := true }

/-! ## Worker dispatch (threader, lines 128-140) -/

/-- The verbose flag the worker passes for a dequeued port:
`scan_port(ip, worker, verbose=(worker <= 100))`. -/
def threaderVerbose (p : Int) : Bool := decide (p ≤ 100)

/-- One worker iteration on a dequeued port. -/
def threaderRun (env : NetEnv) (p : Int) : ScanPortResult :=
  scan_port env p (threaderVerbose p)

/-! ## Scan coordinator (threaded_port_scan, lines 143-174) -/

/-- `total_ports = max_port - min_port + 1` (line 156). -/
def total_ports (mn mx : Int) : Int := mx - mn + 1

/-- `max_threads = min(100, total_ports)` (line 159). -/
def max_threads (mn mx : Int) : Int := min 100 (total_ports mn mx)

/-- Number of iterations of `for _ in range(max_threads)` (lines 165-167):
`range` of a non-positive bound is empty. -/
def workersStarted (mn mx : Int) : Nat := (max_threads mn mx).toNat

/-- The ports enqueued by `for port in range(min_port, max_port + 1)`
(lines 170-171), in enqueue order. -/
def enqueueList (mn mx : Int) : List Int :=
  (List.range (total_ports mn mx).toNat).map (fun (i : Nat) => mn + (i : Int))

/-- The dispatch performed over one scan: each enqueued port with the
verbose flag the worker computes for it. -/
def scanDispatch (mn mx : Int) : List (Int × Bool) :=
  (enqueueList mn mx).map (fun p => (p, threaderVerbose p))

/-- What one call of threaded_port_scan sets up and how it terminates.
The Python function has no validation and no error path of its own:
`error` is always `none`. -/
structure ScanRun where
  workers : Nat
  enqueued : List Int
  error : Option String

/-- threaded_port_scan's setup: start `max_threads` workers, enqueue the
range, no validation, returns normally. -/
def threaded_port_scan (mn mx : Int) : ScanRun :=
  { workers := workersStarted mn mx, enqueued := enqueueList mn mx, error := none }

/-- Coordinator events in program order. -/
inductive CoordEvent where
  | startWorker : CoordEvent
  | enqueue : Int → CoordEvent
  | join : CoordEvent
deriving DecidableEq

/-- The exact order of coordinator actions in threaded_port_scan: all
worker starts (lines 165-167), then all enqueues (lines 170-171), then
`queue.join()` (line 174). -/
def coordTrace (mn mx : Int) : List CoordEvent :=
  List.replicate (workersStarted mn mx) CoordEvent.startWorker
    ++ ((enqueueList mn mx).map CoordEvent.enqueue ++ [CoordEvent.join])

/-! ## Operational model of the shared queue and worker pool -/

/-- State of the shared queue system: ports still in the queue (FIFO),
ports dequeued by some worker whose `scan_port` has not yet completed,
ports for which `task_done` has been called, and the printed lines. -/
structure QState where
  pending : List Int
  running : List Int
  finished : List Int
  output : List String

/-- Worker steps over the shared queue, parameterised by the lines
`scan_port` prints for each port. `dequeue` is `queue.get()`; `complete`
is the completion of `scan_port` followed by `queue.task_done()` (lines
137-140). Any worker may complete any running port. -/
inductive QStep (out : Int → List String) : QState → QState → Prop
  | dequeue (p : Int) (ps r f : List Int) (o : List String) :
      QStep out ⟨p :: ps, r, f, o⟩ ⟨ps, p :: r, f, o⟩
  | complete (p : Int) (ps r f : List Int) (o : List String) (h : p ∈ r) :
      QStep out ⟨ps, r, f, o⟩ ⟨ps, r.erase p, p :: f, o ++ out p⟩

/-- State of the queue system once the coordinator has enqueued the whole
range (workers only consume, so every interleaving of production and
consumption reaches states also reachable from this fully-enqueued one). -/
def initState (mn mx : Int) : QState :=
  { pending := enqueueList mn mx, running := [], finished := [], output := [] }

/-- `queue.join()` (line 174) returns exactly when the unfinished-task
count is zero: nothing pending and nothing dequeued-but-not-done. -/
def joinReturns (s : QState) : Prop := s.pending = [] ∧ s.running = []

/-! ## Lemmas about substring matching -/

theorem prefB_of_append (n m l : List Char) (h : prefB (n ++ m) l = true) :
    prefB n l = true := by
  induction n generalizing l with
  | nil => rfl
  | cons a as ih =>
    cases l with
    | nil => simp [prefB] at h
    | cons b bs =>
      simp only [List.cons_append, prefB, Bool.and_eq_true] at h ⊢
      exact ⟨h.1, ih bs h.2⟩

theorem subB_of_append (n m l : List Char) (h : subB (n ++ m) l = true) :
    subB n l = true := by
  induction l with
  | nil =>
    cases n with
    | nil => rfl
    | cons a as => simp [subB, prefB] at h
  | cons c cs ih =>
    simp only [subB, Bool.or_eq_true] at h ⊢
    rcases h with h | h
    · exact Or.inl (prefB_of_append n m _ h)
    · exact Or.inr (ih h)

theorem occursIn_https_imp_http (s : String) (h : occursIn "HTTPS" s = true) :
    occursIn "HTTP" s = true := by
  have hd : ("HTTPS" : String).data = ("HTTP" : String).data ++ [⟨83, by decide⟩] := by decide
  unfold occursIn at h ⊢
  rw [hd] at h
  exact subB_of_append _ _ _ h

/-! ## Lemmas about classification -/

theorem classifyAux_append (t1 t2 : List (String × String)) (k v : String) (s : String)
    (hfail : ∀ e ∈ t1, occursIn e.1 s = false) (hk : occursIn k s = true) :
    classifyAux (t1 ++ (k, v) :: t2) s = some v := by
  induction t1 with
  | nil => simp [classifyAux, hk]
  | cons e rest ih =>
    have he : occursIn e.1 s = false := hfail e (by simp)
    obtain ⟨k1, v1⟩ := e
    simp only [List.cons_append, classifyAux, he, Bool.false_eq_true, if_false]
    exact ih (fun x hx => hfail x (List.mem_cons_of_mem _ hx))

theorem classifyAux_mem (t : List (String × String)) (s v : String)
    (h : classifyAux t s = some v) : ∃ k, (k, v) ∈ t ∧ occursIn k s = true := by
  induction t with
  | nil => simp [classifyAux] at h
  | cons e rest ih =>
    obtain ⟨k1, v1⟩ := e
    by_cases hk : occursIn k1 s = true
    · simp only [classifyAux, hk, if_true, Option.some.injEq] at h
      exact ⟨k1, by simp [h], hk⟩
    · rw [Bool.not_eq_true] at hk
      simp only [classifyAux, hk, Bool.false_eq_true, if_false] at h
      obtain ⟨k, hkm, hko⟩ := ih h
      exact ⟨k, List.mem_cons_of_mem _ hkm, hko⟩

theorem classify_http (s : String) (h : occursIn "HTTP" s = true) :
    classify s = some "HTTP" := by
  simp [classify, SERVICE_KEYWORDS, classifyAux, h]

theorem https_key_unique (k : String) (h : (k, "HTTPS") ∈ SERVICE_KEYWORDS) :
    k = "HTTPS" := by
  simp only [SERVICE_KEYWORDS, List.mem_cons, List.not_mem_nil, or_false] at h
  rcases h with h|h|h|h|h|h|h|h|h|h|h|h|h <;>
    rw [Prod.mk.injEq] at h <;>
    first
      | (exact absurd h.2 (by decide))
      | (exact h.1)

/-! ## Lemmas about the enqueued range -/

theorem mem_enqueueList (mn mx p : Int) :
    p ∈ enqueueList mn mx ↔ mn ≤ p ∧ p ≤ mx := by
  unfold enqueueList total_ports
  simp only [List.mem_map, List.mem_range]
  constructor
  · rintro ⟨i, hi, rfl⟩
    omega
  · rintro ⟨h1, h2⟩
    exact ⟨(p - mn).toNat, by omega, by omega⟩

theorem length_enqueueList (mn mx : Int) (h : mn ≤ mx) :
    ((enqueueList mn mx).length : Int) = mx - mn + 1 := by
  unfold enqueueList total_ports
  simp only [List.length_map, List.length_range]
  omega

theorem sorted_enqueueList (mn mx : Int) :
    (enqueueList mn mx).Sorted (· < ·) := by
  unfold enqueueList
  refine List.Pairwise.map _ ?_ (List.sorted_lt_range _)
  intro a b hab
  omega

theorem nodup_enqueueList (mn mx : Int) : (enqueueList mn mx).Nodup :=
  (sorted_enqueueList mn mx).nodup

/-! ## Positional lemmas about lists, for the coordinator trace -/

theorem get_append_lt_of_ne {α : Type} (A B : List α) (v : α)
    (hB : ∀ x ∈ B, x ≠ v) (i : Nat) (hi : i < (A ++ B).length)
    (h : (A ++ B).get ⟨i, hi⟩ = v) : i < A.length := by
  by_contra hge
  push_neg at hge
  have hlen : i - A.length < B.length := by
    simp only [List.length_append] at hi
    omega
  have heq : (A ++ B).get ⟨i, hi⟩ = B.get ⟨i - A.length, hlen⟩ := by
    simp [List.get_eq_getElem, List.getElem_append_right hge]
  rw [heq] at h
  exact hB _ (B.get_mem _ _) h

theorem get_append_ge_of_ne {α : Type} (A B : List α) (v : α)
    (hA : ∀ x ∈ A, x ≠ v) (i : Nat) (hi : i < (A ++ B).length)
    (h : (A ++ B).get ⟨i, hi⟩ = v) : A.length ≤ i := by
  by_contra hlt
  push_neg at hlt
  have heq : (A ++ B).get ⟨i, hi⟩ = A.get ⟨i, hlt⟩ := by
    simp [List.get_eq_getElem, List.getElem_append_left hlt]
  rw [heq] at h
  exact hA _ (A.get_mem _ _) h

/-! ## Invariants of the queue transition system -/

theorem qstep_perm {out : Int → List String} {a b : QState} (h : QStep out a b) :
    (b.pending ++ b.running ++ b.finished).Perm (a.pending ++ a.running ++ a.finished) := by
  cases h with
  | dequeue p ps r f o =>
    exact List.Perm.append_right f List.perm_middle
  | complete p ps r f o hmem =>
    simp only [List.append_assoc]
    exact List.Perm.append_left ps
      (List.perm_middle.trans (((List.perm_cons_erase hmem).append_right f).symm))

theorem reach_perm (mn mx : Int) (out : Int → List String) (s : QState)
    (hr : Relation.ReflTransGen (QStep out) (initState mn mx) s) :
    (s.pending ++ s.running ++ s.finished).Perm (enqueueList mn mx) := by
  induction hr with
  | refl => simp [initState]
  | tail hab hbc ih => exact (qstep_perm hbc).trans ih

/-! ## Claims -/

/-- C1: for min_port ≤ max_port, threaded_port_scan enqueues exactly
max_port - min_port + 1 ports — every port of [min_port, max_port], in
ascending order, with no duplicates and no omissions — and in the
coordinator's action trace every worker start precedes every enqueue. -/
theorem c1_enqueue_complete (mn mx : Int) (h : mn ≤ mx) :
    (((threaded_port_scan mn mx).enqueued.length : Int) = mx - mn + 1)
    ∧ (∀ p : Int, p ∈ (threaded_port_scan mn mx).enqueued ↔ mn ≤ p ∧ p ≤ mx)
    ∧ (threaded_port_scan mn mx).enqueued.Sorted (· < ·)
    ∧ (threaded_port_scan mn mx).enqueued.Nodup
    ∧ (∀ i j (hi : i < (coordTrace mn mx).length) (hj : j < (coordTrace mn mx).length),
        (coordTrace mn mx).get ⟨i, hi⟩ = CoordEvent.startWorker →
        (∃ p, (coordTrace mn mx).get ⟨j, hj⟩ = CoordEvent.enqueue p) → i < j) := by
  refine ⟨length_enqueueList mn mx h, fun p => mem_enqueueList mn mx p,
    sorted_enqueueList mn mx, nodup_enqueueList mn mx, ?_⟩
  intro i j hi hj hsw hp
  obtain ⟨p, hp⟩ := hp
  have hiw : i < (List.replicate (workersStarted mn mx) CoordEvent.startWorker).length := by
    refine get_append_lt_of_ne _
      ((enqueueList mn mx).map CoordEvent.enqueue ++ [CoordEvent.join]) _ ?_ i hi hsw
    intro x hx
    rcases List.mem_append.mp hx with hx | hx
    · obtain ⟨q, hq, rfl⟩ := List.mem_map.mp hx
      intro hc
      cases hc
    · rw [List.mem_singleton] at hx
      subst hx
      intro hc
      cases hc
  have hjw : (List.replicate (workersStarted mn mx) CoordEvent.startWorker).length ≤ j := by
    refine get_append_ge_of_ne _ _ _ ?_ j hj hp
    intro x hx
    rw [List.mem_replicate] at hx
    rw [hx.2]
    intro hc
    cases hc
  omega

theorem c1_enqueue_complete_witness :
    (1 : Int) ≤ 3 ∧ (((threaded_port_scan 1 3).enqueued.length : Int) = 3 - 1 + 1) :=
  ⟨by decide, (c1_enqueue_complete 1 3 (by decide)).1⟩

/-- C2: queue.join() returns only once every enqueued port has been
dequeued and marked processed (task_done after its scan_port completed):
in any reachable state where join returns, the finished ports are exactly
the enqueued range, and no worker step — hence no further per-port
output — is possible. -/
theorem c2_join_barrier (mn mx : Int) (out : Int → List String) (s : QState)
    (hr : Relation.ReflTransGen (QStep out) (initState mn mx) s)
    (hj : joinReturns s) :
    s.finished.Perm (enqueueList mn mx) ∧ (∀ t, ¬ QStep out s t) := by
  obtain ⟨hpend, hrun⟩ := hj
  constructor
  · have h := reach_perm mn mx out s hr
    rw [hpend, hrun] at h
    simpa using h
  · intro t hstep
    obtain ⟨pend, run, fin, o⟩ := s
    have hpend2 : pend = [] := hpend
    have hrun2 : run = [] := hrun
    subst hpend2
    subst hrun2
    cases hstep with
    | complete p ps r f o hmem => exact absurd hmem (List.not_mem_nil p)

theorem c2_join_barrier_witness :
    (QState.mk [] [] [1] []).finished.Perm (enqueueList 1 1)
      ∧ (∀ t, ¬ QStep (fun _ => []) (QState.mk [] [] [1] []) t) := by
  refine c2_join_barrier 1 1 (fun _ => []) _ ?_ ⟨rfl, rfl⟩
  have henq : enqueueList 1 1 = [1] := by decide
  have hinit : initState 1 1 = QState.mk [1] [] [] [] := by
    simp only [initState, henq]
  rw [hinit]
  have s1 : QStep (fun _ => ([] : List String)) (QState.mk [1] [] [] []) (QState.mk [] [1] [] []) :=
    QStep.dequeue 1 [] [] [] []
  have s2 : QStep (fun _ => ([] : List String)) (QState.mk [] [1] [] []) (QState.mk [] [] [1] []) :=
    QStep.complete 1 [] [1] [] [] (List.mem_singleton.mpr rfl)
  exact Relation.ReflTransGen.tail (Relation.ReflTransGen.single s1) s2

/-- C3 counterexample: for the invalid range min_port = max_port = 0 (both
bounds outside [1, 65535]) threaded_port_scan raises no error, starts one
worker and enqueues (so scans) port 0 — it does not fail fast. -/
theorem c3_counterexample :
    (threaded_port_scan 0 0).error = none
    ∧ (threaded_port_scan 0 0).workers = 1
    ∧ (threaded_port_scan 0 0).enqueued = [0] := by
  refine ⟨rfl, ?_, ?_⟩ <;> decide

/-- C3 amended: threaded_port_scan performs no range validation and never
raises a range error; when min_port > max_port it starts zero workers and
enqueues nothing, and when min_port ≤ max_port it starts
min(100, max_port - min_port + 1) workers and enqueues every port of the
range, even bounds outside [1, 65535]. -/
theorem c3_no_validation (mn mx : Int) :
    (threaded_port_scan mn mx).error = none
    ∧ (mx < mn →
        (threaded_port_scan mn mx).workers = 0
          ∧ (threaded_port_scan mn mx).enqueued = [])
    ∧ (mn ≤ mx →
        (threaded_port_scan mn mx).workers = (min 100 (mx - mn + 1)).toNat
          ∧ ∀ p : Int, p ∈ (threaded_port_scan mn mx).enqueued ↔ mn ≤ p ∧ p ≤ mx) := by
  refine ⟨rfl, ?_, ?_⟩
  · intro h
    constructor
    · show (max_threads mn mx).toNat = 0
      unfold max_threads total_ports
      omega
    · show enqueueList mn mx = []
      unfold enqueueList total_ports
      have : (mx - mn + 1).toNat = 0 := by omega
      rw [this]
      rfl
  · intro _
    exact ⟨rfl, fun p => mem_enqueueList mn mx p⟩

theorem c3_no_validation_witness :
    (3 : Int) < 5
    ∧ ((threaded_port_scan 5 3).workers = 0 ∧ (threaded_port_scan 5 3).enqueued = []) :=
  ⟨by decide, (c3_no_validation 5 3).2.1 (by decide)⟩

/-- C4: the verbose/identify flag a worker passes to scan_port for a
dispatched port p is true exactly when p ≤ 100, for every port of every
scan range — independent of the range bounds. -/
theorem c4_identify_flag (mn mx p : Int) (b : Bool)
    (h : (p, b) ∈ scanDispatch mn mx) : b = true ↔ p ≤ 100 := by
  obtain ⟨q, hq, heq⟩ := List.mem_map.mp h
  injection heq with h1 h2
  subst h1
  subst h2
  simp [threaderVerbose]

theorem c4_identify_flag_witness :
    ((150 : Int), false) ∈ scanDispatch 150 160
      ∧ (false = true ↔ (150 : Int) ≤ 100) :=
  ⟨by decide, c4_identify_flag 150 160 150 false (by decide)⟩

/-- C10: for min_port > max_port, threaded_port_scan starts zero workers,
enqueues nothing, can take no worker step (no port is scanned), and
returns normally with no error. -/
theorem c10_inverted_range (mn mx : Int) (h : mx < mn) :
    (threaded_port_scan mn mx).workers = 0
    ∧ (threaded_port_scan mn mx).enqueued = []
    ∧ (threaded_port_scan mn mx).error = none
    ∧ (∀ (out : Int → List String) (t : QState), ¬ QStep out (initState mn mx) t) := by
  have henq : enqueueList mn mx = [] := by
    unfold enqueueList total_ports
    have : (mx - mn + 1).toNat = 0 := by omega
    rw [this]
    rfl
  refine ⟨?_, henq, rfl, ?_⟩
  · show (max_threads mn mx).toNat = 0
    unfold max_threads total_ports
    omega
  · intro out t hstep
    have hinit : initState mn mx = QState.mk [] [] [] [] := by
      simp only [initState, henq]
    rw [hinit] at hstep
    cases hstep with
    | complete p ps r f o hmem => exact absurd hmem (List.not_mem_nil p)

theorem c10_inverted_range_witness :
    (2 : Int) < 10
    ∧ ((threaded_port_scan 10 2).workers = 0
        ∧ (threaded_port_scan 10 2).enqueued = []
        ∧ (threaded_port_scan 10 2).error = none
        ∧ (∀ (out : Int → List String) (t : QState), ¬ QStep out (initState 10 2) t)) :=
  ⟨by decide, c10_inverted_range 10 2 (by decide)⟩

/-- C5: classification iterates SERVICE_KEYWORDS in its defined order and
returns the service of the first keyword occurring in the response text:
a response containing "220" but not the earlier-listed "HTTP" classifies
as FTP, and one containing both "HTTP" and "220" classifies as the
table's first configured match "HTTP", independent of where the
substrings occur in the text. -/
theorem c5_first_keyword (s : String) :
    (∀ t1 t2 k v, SERVICE_KEYWORDS = t1 ++ (k, v) :: t2 →
        (∀ e ∈ t1, occursIn e.1 s = false) → occursIn k s = true →
        classify s = some v)
    ∧ (occursIn "HTTP" s = false → occursIn "220" s = true → classify s = some "FTP")
    ∧ (occursIn "HTTP" s = true → occursIn "220" s = true → classify s = some "HTTP") := by
  refine ⟨?_, ?_, ?_⟩
  · intro t1 t2 k v heq hfail hk
    unfold classify
    rw [heq]
    exact classifyAux_append t1 t2 k v s hfail hk
  · intro h1 h2
    have heq : SERVICE_KEYWORDS = [("HTTP", "HTTP")] ++ ("220", "FTP") ::
        [("FTP", "FTP"), ("SSH", "SSH"), ("Telnet", "Telnet"), ("Login", "Telnet"),
         ("POP3", "POP3"), ("IMAP", "IMAP"), ("SMTP", "SMTP"), ("MySQL", "MySQL"),
         ("RFB", "VNC"), ("RDP", "Remote Desktop"), ("HTTPS", "HTTPS")] := rfl
    unfold classify
    rw [heq]
    refine classifyAux_append _ _ _ _ s ?_ h2
    intro e he
    rw [List.mem_singleton] at he
    subst he
    exact h1
  · intro h1 _
    exact classify_http s h1

theorem c5_first_keyword_witness :
    (occursIn "HTTP" "x220y" = false ∧ occursIn "220" "x220y" = true
      ∧ classify "x220y" = some "FTP")
    ∧ (occursIn "HTTP" "220 HTTP" = true ∧ occursIn "220" "220 HTTP" = true
      ∧ classify "220 HTTP" = some "HTTP") :=
  ⟨⟨by decide, by decide, (c5_first_keyword "x220y").2.1 (by decide) (by decide)⟩,
   ⟨by decide, by decide, (c5_first_keyword "220 HTTP").2.2 (by decide) (by decide)⟩⟩

/-- C9: classification never returns "HTTPS": a text containing "HTTPS"
also contains "HTTP", which comes first in the keyword table, so such
responses classify as "HTTP" and the "HTTPS" table entry is unreachable. -/
theorem c9_https_unreachable (s : String) :
    (occursIn "HTTPS" s = true → occursIn "HTTP" s = true ∧ classify s = some "HTTP")
    ∧ (∀ v, classify s = some v → v ≠ "HTTPS") := by
  constructor
  · intro h
    have hh := occursIn_https_imp_http s h
    exact ⟨hh, classify_http s hh⟩
  · rintro v hv rfl
    obtain ⟨k, hk, hocc⟩ := classifyAux_mem SERVICE_KEYWORDS s "HTTPS" hv
    have hkeq := https_key_unique k hk
    subst hkeq
    have hh := occursIn_https_imp_http s hocc
    have hc := classify_http s hh
    rw [hv] at hc
    exact absurd (Option.some.inj hc) (by decide)

theorem c9_https_unreachable_witness :
    occursIn "HTTPS" "zHTTPSw" = true
      ∧ (occursIn "HTTP" "zHTTPSw" = true ∧ classify "zHTTPSw" = some "HTTP") :=
  ⟨by decide, (c9_https_unreachable "zHTTPSw").1 (by decide)⟩

/-- C6 counterexample: when the connection attempt raises, scan_port's
except-handler prints the error line and the socket is not closed — the
claim "closed on every exit path, including exceptions" fails here. -/
theorem c6_counterexample :
    (scan_port (NetEnv.mk (ConnectOutcome.exn "unreachable") ProbeOutcome.exn)
        80 true).socketClosed = false := rfl

/-- C6 amended: scan_port closes its socket on every non-exceptional exit
path (whatever code connect_ex returns), but when an exception is raised
during the connection attempt or the subsequent handling, the
except-handler runs and the socket is not closed. -/
theorem c6_close_paths (env : NetEnv) (port : Int) (v : Bool) :
    (∀ c, env.connect = ConnectOutcome.ok c → (scan_port env port v).socketClosed = true)
    ∧ (∀ m, env.connect = ConnectOutcome.exn m →
        (scan_port env port v).socketClosed = false) := by
  obtain ⟨conn, probe⟩ := env
  constructor
  · intro c hc
    have hc2 : conn = ConnectOutcome.ok c := hc
    subst hc2
    by_cases h0 : c = 0 <;> simp [scan_port, h0]
  · intro m hm
    have hm2 : conn = ConnectOutcome.exn m := hm
    subst hm2
    rfl

theorem c6_close_paths_witness :
    ((NetEnv.mk (ConnectOutcome.ok 0) ProbeOutcome.exn).connect = ConnectOutcome.ok 0)
    ∧ (scan_port (NetEnv.mk (ConnectOutcome.ok 0) ProbeOutcome.exn)
        22 false).socketClosed = true :=
  ⟨rfl, (c6_close_paths (NetEnv.mk (ConnectOutcome.ok 0) ProbeOutcome.exn) 22 false).1 0 rfl⟩

theorem identify_service_exn (port : Int) :
    identify_service ProbeOutcome.exn port = "Unknown" := by
  unfold identify_service identifyServiceCore
  cases probeFor port <;> rfl

/-- C7: identify_service never propagates an error: its except-wrapper
maps every error of the probe body to "Unknown", a raising probe exchange
yields "Unknown", and a successful connection whose probe raises is still
reported as open with service "Unknown" — probe failure is not conflated
with connection failure. -/
theorem c7_probe_error_unknown (conn : ProbeOutcome) (env : NetEnv) (port : Int) (v : Bool) :
    (∀ e, identifyServiceCore conn port = Except.error e →
        identify_service conn port = "Unknown")
    ∧ identify_service ProbeOutcome.exn port = "Unknown"
    ∧ (env.connect = ConnectOutcome.ok 0 → env.probe = ProbeOutcome.exn →
        (scan_port env port v).output
          = ["Port " ++ toString port ++ " is open (Service: " ++ "Unknown" ++ ")"]) := by
  refine ⟨?_, identify_service_exn port, ?_⟩
  · intro e he
    unfold identify_service
    rw [he]
  · intro hc hp
    obtain ⟨c1, p1⟩ := env
    have hc2 : c1 = ConnectOutcome.ok 0 := hc
    have hp2 : p1 = ProbeOutcome.exn := hp
    subst hc2
    subst hp2
    cases v <;> simp [scan_port, identify_service_exn]

theorem c7_probe_error_unknown_witness :
    (scan_port (NetEnv.mk (ConnectOutcome.ok 0) ProbeOutcome.exn) 21 true).output
      = ["Port 21 is open (Service: Unknown)"] :=
  (c7_probe_error_unknown ProbeOutcome.exn
    (NetEnv.mk (ConnectOutcome.ok 0) ProbeOutcome.exn) 21 true).2.2 rfl rfl

/-- C8: a connection attempt that fails (nonzero connect_ex code)
produces no output at all — not even an "open=false" line — while a
successful connection produces exactly one line of the literal shape
"Port {port} is open (Service: {service})". -/
theorem c8_output_shape (env : NetEnv) (port : Int) (v : Bool) :
    (∀ c, env.connect = ConnectOutcome.ok c → c ≠ 0 →
        (scan_port env port v).output = [])
    ∧ (env.connect = ConnectOutcome.ok 0 →
        ∃ s, (scan_port env port v).output
          = ["Port " ++ toString port ++ " is open (Service: " ++ s ++ ")"]) := by
  obtain ⟨c1, p1⟩ := env
  constructor
  · intro c hc hne
    have hc2 : c1 = ConnectOutcome.ok c := hc
    subst hc2
    simp [scan_port, hne]
  · intro hc
    have hc2 : c1 = ConnectOutcome.ok 0 := hc
    subst hc2
    exact ⟨if v then identify_service p1 port else "Unknown", by simp [scan_port]⟩

theorem c8_output_shape_witness :
    ((NetEnv.mk (ConnectOutcome.ok 111) ProbeOutcome.exn).connect = ConnectOutcome.ok 111)
    ∧ (111 : Int) ≠ 0
    ∧ (scan_port (NetEnv.mk (ConnectOutcome.ok 111) ProbeOutcome.exn) 80 true).output = [] :=
  ⟨rfl, by decide,
    (c8_output_shape (NetEnv.mk (ConnectOutcome.ok 111) ProbeOutcome.exn) 80 true).1
      111 rfl (by decide)⟩
